import Mathlib

/-!
Shallow embedding of the UUV closed-loop depth-control simulator
(`uuv_mission/dynamic.py` and `uuv_mission/controll.py`).

Python floats are modelled as rationals (`ℚ`); the mutable `Submarine`
and `PDController` objects become explicit state records threaded through
the functions; the `ValueError` raised by `ClosedLoop.simulate` becomes an
`Except.error` result that also returns the (unchanged) states.
-/

namespace UUV

/-- Vehicle state and constants, from `Submarine.__init__`:
`mass=1, drag=0.1, actuator_gain=1, dt=1, pos_x=0, pos_y=0, vel_x=1, vel_y=0`. -/
structure Submarine where
  mass : ℚ
  drag : ℚ
  actuator_gain : ℚ
  dt : ℚ
  pos_x : ℚ
  pos_y : ℚ
  vel_x : ℚ
  vel_y : ℚ
  deriving DecidableEq, Repr

/-- The state `Submarine.__init__` constructs. -/
def Submarine.init : Submarine :=
  { mass := 1, drag := 1/10, actuator_gain := 1, dt := 1,
    pos_x := 0, pos_y := 0, vel_x := 1, vel_y := 0 }

/-- `Submarine.transition`: position integrates the pre-step velocity, then
`force_y = -drag*vel_y + actuator_gain*(action+disturbance)`,
`acc_y = force_y/mass`, `vel_y += acc_y*dt`. -/
def Submarine.transition (s : Submarine) (action disturbance : ℚ) : Submarine :=
  let pos_x := s.pos_x + s.vel_x * s.dt
  let pos_y := s.pos_y + s.vel_y * s.dt
  let force_y := -s.drag * s.vel_y + s.actuator_gain * (action + disturbance)
  let acc_y := force_y / s.mass
  let vel_y := s.vel_y + acc_y * s.dt
  { s with pos_x := pos_x, pos_y := pos_y, vel_y := vel_y }

/-- `Submarine.get_depth`: returns `pos_y`. -/
def Submarine.get_depth (s : Submarine) : ℚ := s.pos_y

/-- `Submarine.get_position`: returns `(pos_x, pos_y)`. -/
def Submarine.get_position (s : Submarine) : ℚ × ℚ := (s.pos_x, s.pos_y)

/-- `Submarine.reset_state`: `pos_x=0, pos_y=0, vel_x=1, vel_y=0`
(the physical constants are untouched). -/
def Submarine.reset_state (s : Submarine) : Submarine :=
  { s with pos_x := 0, pos_y := 0, vel_x := 1, vel_y := 0 }

/-- PD controller state, from `PDController.__init__`
(`kp=0.15`, `kd=0.6`, `previous_error=0`). -/
structure PDController where
  kp : ℚ
  kd : ℚ
  previous_error : ℚ
  deriving DecidableEq, Repr

/-- The controller state `PDController.__init__` constructs with default gains. -/
def PDController.init : PDController :=
  { kp := 3/20, kd := 3/5, previous_error := 0 }

/-- `PDController.compute_control_action`: returns the control action and the
updated controller state (the mutation of `previous_error`). -/
def PDController.compute_control_action (c : PDController)
    (reference current_depth : ℚ) : ℚ × PDController :=
  let error := reference - current_depth
  let control_action := c.kp * error + c.kd * (error - c.previous_error)
  (control_action, { c with previous_error := error })

/-- `Mission` dataclass: three sequences; `simulate` reads only `reference`. -/
structure Mission where
  reference : List ℚ
  cave_height : List ℚ
  cave_depth : List ℚ
  deriving DecidableEq, Repr

/-- The `for t in range(T)` loop body of `ClosedLoop.simulate`: at each step
record `get_position()`, observe `get_depth()`, compute the control action for
`reference[t]`, then `transition(action, disturbances[t])`.  Returns the
recorded positions and the final plant/controller states.  (The branch with
leftover references but no disturbances is unreachable under the length
guard of `simulate`.) -/
def simulateLoop : Submarine → PDController → List ℚ → List ℚ →
    List (ℚ × ℚ) × Submarine × PDController
  | plant, ctrl, [], _ => ([], plant, ctrl)
  | plant, ctrl, _ :: _, [] => ([], plant, ctrl)
  | plant, ctrl, r :: refs, d :: dists =>
    let recorded := plant.get_position
    let observation := plant.get_depth
    let step := ctrl.compute_control_action r observation
    let rest := simulateLoop (plant.transition step.1 d) step.2 refs dists
    (recorded :: rest.1, rest.2)

/-- `ClosedLoop.simulate`: raises (`Except.error`) when
`len(disturbances) < len(mission.reference)`, otherwise resets the plant and
runs the loop.  The returned pair also carries the post-call plant and
controller states (unchanged on the error path, which precedes the reset). -/
def ClosedLoop.simulate (plant : Submarine) (ctrl : PDController)
    (mission : Mission) (disturbances : List ℚ) :
    Except String (List (ℚ × ℚ)) × Submarine × PDController :=
  if disturbances.length < mission.reference.length then
    (Except.error "Disturbances must be at least as long as mission duration",
      plant, ctrl)
  else
    let r := simulateLoop plant.reset_state ctrl mission.reference disturbances
    (Except.ok r.1, r.2.1, r.2.2)

/-- `np.max` over a (nonempty, in all uses) list. -/
def maxList : List ℚ → ℚ
  | [] => 0
  | x :: xs => xs.foldl max x

/-- `within_tolerance = np.abs(position_y - reference_y) < 0.02 * np.abs(reference_y)`. -/
def withinTolerance (position_y reference_y : List ℚ) : List Bool :=
  List.zipWith (fun p r => decide (|p - r| < 2/100 * |r|)) position_y reference_y

/-- The generator `next((i for i in range(n, 0, -1) if not within[i]), default)`
without its default: scans indices `n, n-1, ..., 1` and yields the first one
at which `within` is `false`. -/
def backScan (within : List Bool) : ℕ → Option ℕ
  | 0 => none
  | n + 1 => if within.getD (n + 1) true then backScan within n else some (n + 1)

/-- The three scalars printed by `calculate_performance_metrics`. -/
structure Metrics where
  overshoot : ℚ
  steady_state_error : ℚ
  settling_seconds : ℚ
  deriving DecidableEq, Repr

/-- `ClosedLoop.calculate_performance_metrics` over `position = trajectory.position`
and `mission.reference`; `dt` is `self.plant.dt`.  `position_y[-1]` is embedded
as the entry at index `len-1`; the settling scan runs over
`range(T-1, 0, -1)` with default `T-1`, and the printed settling time is
`(scan_result + 1) * dt`. -/
def calculate_performance_metrics (dt : ℚ) (position : List (ℚ × ℚ))
    (mission : Mission) : Metrics :=
  let position_y := position.map Prod.snd
  let reference_y := mission.reference
  let T := reference_y.length
  let max_deviation := maxList (List.zipWith (fun p r => |p - r|) position_y reference_y)
  let overshoot := max_deviation / maxList (reference_y.map (fun r => |r|)) * 100
  let steady_state_error :=
    |position_y.getD (position_y.length - 1) 0 - reference_y.getD (T - 1) 0|
  let within := withinTolerance position_y reference_y
  let settling_time : ℤ :=
    (match backScan within (T - 1) with
      | some i => (i : ℤ)
      | none => (T : ℤ) - 1) + 1
  { overshoot := overshoot, steady_state_error := steady_state_error,
    settling_seconds := (settling_time : ℚ) * dt }

/-- Projection used to read the trajectory out of a `ClosedLoop.simulate`
result (empty list on the error path). -/
def trajectoryOf
    (r : Except String (List (ℚ × ℚ)) × Submarine × PDController) :
    List (ℚ × ℚ) :=
  r.1.toOption.getD []

/-- Written from the spec's words for the settling-time rule (refinement
comparison against `calculate_performance_metrics`): scan from `t = T-2` down
to `t = 1`; the settling index is the first (scanning backward) index `i`
with `within[i]` false, plus 1; if no such index exists it defaults to `T-1`;
the reported settling time is `(settling_index + 1) * dt`. -/
def settlingSecondsClaim (dt : ℚ) (position_y reference_y : List ℚ) : ℚ :=
  let T := reference_y.length
  let within := withinTolerance position_y reference_y
  let settling_index : ℤ :=
    match backScan within (T - 2) with
    | some i => (i : ℤ) + 1
    | none => (T : ℤ) - 1
  ((settling_index + 1 : ℤ) : ℚ) * dt

/-! ### Characterization of the backward settling scan -/

lemma backScan_none_iff (w : List Bool) (n : ℕ) :
    backScan w n = none ↔ ∀ j : ℕ, 1 ≤ j → j ≤ n → w.getD j true = true := by
  induction n with
  | zero =>
    constructor
    · intro _ j h1 h0
      omega
    · intro _
      rfl
  | succ n ih =>
    by_cases h : w.getD (n + 1) true = true
    · rw [backScan, if_pos h, ih]
      constructor
      · intro hall j h1 hj
        rcases Nat.lt_or_ge j (n + 1) with hlt | hge
        · exact hall j h1 (by omega)
        · have hje : j = n + 1 := by omega
          rw [hje]
          exact h
      · intro hall j h1 hj
        exact hall j h1 (by omega)
    · rw [backScan, if_neg h]
      constructor
      · intro hc
        exact absurd hc (by simp)
      · intro hall
        exact absurd (hall (n + 1) (by omega) (le_refl _)) h

lemma backScan_some (w : List Bool) (n : ℕ) :
    ∀ i : ℕ, backScan w n = some i →
      1 ≤ i ∧ i ≤ n ∧ w.getD i true = false ∧
        ∀ j : ℕ, i < j → j ≤ n → w.getD j true = true := by
  induction n with
  | zero =>
    intro i h
    exact absurd h (by simp [backScan])
  | succ n ih =>
    intro i h
    by_cases hw : w.getD (n + 1) true = true
    · rw [backScan, if_pos hw] at h
      obtain ⟨h1, h2, h3, h4⟩ := ih i h
      refine ⟨h1, by omega, h3, fun j hij hj => ?_⟩
      rcases Nat.lt_or_ge j (n + 1) with hlt | hge
      · exact h4 j hij (by omega)
      · have hje : j = n + 1 := by omega
        rw [hje]
        exact hw
    · rw [backScan, if_neg hw, Option.some.injEq] at h
      refine ⟨by omega, by omega, ?_, fun j hij hj => by omega⟩
      rw [← h]
      exact Bool.not_eq_true _ ▸ Bool.of_not_eq_true hw

/-! ### Claim theorems -/

/-- C1, counterexample: on `position_y = [0,0,1,1,1]`, `reference = [1,1,1,1,1]`,
`dt = 1`, the spec's settling rule (scan from `T-2`, report
`(settling_index + 1) * dt`) yields 3, while
`calculate_performance_metrics` reports 2. -/
theorem claim1_settling_counterexample :
    settlingSecondsClaim 1 [0, 0, 1, 1, 1] [1, 1, 1, 1, 1] ≠
      (calculate_performance_metrics 1 [(0, 0), (1, 0), (2, 1), (3, 1), (4, 1)]
        ⟨[1, 1, 1, 1, 1], [], []⟩).settling_seconds := by
  norm_num [settlingSecondsClaim, calculate_performance_metrics, withinTolerance,
    backScan, maxList]

/-- C1 (amended): the settling scan of `calculate_performance_metrics` runs
from `t = T-1` down to `t = 1`; either there is a latest index `i` in that
range with `within[i]` false, and the reported settling time is
`(i + 1) * dt`; or every index in `[1, T-1]` is within tolerance and the
reported settling time is `T * dt`. -/
theorem claim1_settling_amended (dt : ℚ) (position : List (ℚ × ℚ)) (m : Mission) :
    (∃ i : ℕ, 1 ≤ i ∧ i < m.reference.length ∧
        (withinTolerance (position.map Prod.snd) m.reference).getD i true = false ∧
        (∀ j : ℕ, i < j → j < m.reference.length →
          (withinTolerance (position.map Prod.snd) m.reference).getD j true = true) ∧
        (calculate_performance_metrics dt position m).settling_seconds =
          ((i : ℚ) + 1) * dt) ∨
      ((∀ j : ℕ, 1 ≤ j → j < m.reference.length →
          (withinTolerance (position.map Prod.snd) m.reference).getD j true = true) ∧
        (calculate_performance_metrics dt position m).settling_seconds =
          (m.reference.length : ℚ) * dt) := by
  have hmet : (calculate_performance_metrics dt position m).settling_seconds =
      (((match backScan (withinTolerance (position.map Prod.snd) m.reference)
            (m.reference.length - 1) with
          | some i => (i : ℤ)
          | none => (m.reference.length : ℤ) - 1) + 1 : ℤ) : ℚ) * dt := rfl
  cases hbs : backScan (withinTolerance (position.map Prod.snd) m.reference)
      (m.reference.length - 1) with
  | none =>
    right
    have hall := (backScan_none_iff _ _).mp hbs
    refine ⟨fun j h1 hj => hall j h1 (by omega), ?_⟩
    rw [hmet, hbs]
    push_cast
    ring
  | some i =>
    left
    obtain ⟨h1, h2, h3, h4⟩ := backScan_some _ _ i hbs
    refine ⟨i, h1, by omega, h3, fun j hij hj => h4 j hij (by omega), ?_⟩
    rw [hmet, hbs]
    push_cast
    ring

/-- C2, counterexample: for `reference = [0,0,0,0,0]`,
`disturbances = [1,0,0,0,0]`, default gains and constants, the trajectory
entry at index 1 has y-coordinate 0, not 1 (the t=0 disturbance changes the
velocity after step 0; the position recorded at index 1 was integrated with
the old velocity). -/
theorem claim2_trajectory_counterexample :
    ((trajectoryOf (ClosedLoop.simulate Submarine.init PDController.init
        ⟨[0, 0, 0, 0, 0], [], []⟩ [1, 0, 0, 0, 0])).getD 1 (0, 0)).2 ≠ 1 := by
  norm_num [trajectoryOf, ClosedLoop.simulate, simulateLoop, Submarine.init,
    PDController.init, Submarine.reset_state, Submarine.transition,
    Submarine.get_position, Submarine.get_depth,
    PDController.compute_control_action, Except.toOption]

/-- C2 (amended): for mission reference `[0,0,0,0,0]`, disturbances
`[1,0,0,0,0]`, default controller gains and vehicle constants, the returned
trajectory has y-coordinate 0 at indices 0 and 1, and the y-coordinate 1
produced by the t=0 disturbance appears at index 2. -/
theorem claim2_trajectory_amended :
    (trajectoryOf (ClosedLoop.simulate Submarine.init PDController.init
        ⟨[0, 0, 0, 0, 0], [], []⟩ [1, 0, 0, 0, 0])).getD 0 (1, 1) = (0, 0) ∧
    ((trajectoryOf (ClosedLoop.simulate Submarine.init PDController.init
        ⟨[0, 0, 0, 0, 0], [], []⟩ [1, 0, 0, 0, 0])).getD 1 (1, 1)).2 = 0 ∧
    ((trajectoryOf (ClosedLoop.simulate Submarine.init PDController.init
        ⟨[0, 0, 0, 0, 0], [], []⟩ [1, 0, 0, 0, 0])).getD 2 (0, 0)).2 = 1 := by
  norm_num [trajectoryOf, ClosedLoop.simulate, simulateLoop, Submarine.init,
    PDController.init, Submarine.reset_state, Submarine.transition,
    Submarine.get_position, Submarine.get_depth,
    PDController.compute_control_action, Except.toOption, Prod.ext_iff]

/-- C8: with mission reference `[1,1,1]`, zero disturbances and default
gains, two consecutive `simulate` calls on the same plant/controller pair
return different trajectories, and the controller's `previous_error` after
the first call is no longer its initial value 0. -/
theorem claim8_simulate_not_idempotent :
    (ClosedLoop.simulate Submarine.init PDController.init
        ⟨[1, 1, 1], [], []⟩ [0, 0, 0]).1 ≠
      (ClosedLoop.simulate
        (ClosedLoop.simulate Submarine.init PDController.init
          ⟨[1, 1, 1], [], []⟩ [0, 0, 0]).2.1
        (ClosedLoop.simulate Submarine.init PDController.init
          ⟨[1, 1, 1], [], []⟩ [0, 0, 0]).2.2
        ⟨[1, 1, 1], [], []⟩ [0, 0, 0]).1 ∧
    (ClosedLoop.simulate Submarine.init PDController.init
        ⟨[1, 1, 1], [], []⟩ [0, 0, 0]).2.2.previous_error ≠ 0 := by
  norm_num [ClosedLoop.simulate, simulateLoop, Submarine.init,
    PDController.init, Submarine.reset_state, Submarine.transition,
    Submarine.get_position, Submarine.get_depth,
    PDController.compute_control_action, Prod.ext_iff]

/-- C3: `simulate` fails (with the `ValueError` message) exactly when the
disturbance sequence is shorter than the mission horizon, and on that error
path both the plant state and the controller state are returned unchanged
(the length check precedes the reset and the loop). -/
theorem claim3_invalid_input (plant : Submarine) (ctrl : PDController)
    (m : Mission) (d : List ℚ) :
    (((ClosedLoop.simulate plant ctrl m d).1 =
        Except.error "Disturbances must be at least as long as mission duration") ↔
      d.length < m.reference.length) ∧
    (d.length < m.reference.length →
      (ClosedLoop.simulate plant ctrl m d).2.1 = plant ∧
      (ClosedLoop.simulate plant ctrl m d).2.2 = ctrl) := by
  by_cases h : d.length < m.reference.length <;>
    simp [ClosedLoop.simulate, h]

/-- C3 witness at a concrete short disturbance list. -/
theorem claim3_invalid_input_witness :
    (ClosedLoop.simulate Submarine.init PDController.init
        ⟨[0, 0], [], []⟩ [0]).2.1 = Submarine.init ∧
    (ClosedLoop.simulate Submarine.init PDController.init
        ⟨[0, 0], [], []⟩ [0]).2.2 = PDController.init :=
  (claim3_invalid_input Submarine.init PDController.init
    ⟨[0, 0], [], []⟩ [0]).2 (by decide)

/-- C5: `compute_control_action` returns
`kp * error + kd * (error - previous_error)` with `error = reference -
current_depth`, its only state change is `previous_error := error`, and a
freshly constructed controller has `previous_error = 0`. -/
theorem claim5_pd_control_law (c : PDController) (reference current_depth : ℚ) :
    (c.compute_control_action reference current_depth).1 =
        c.kp * (reference - current_depth) +
          c.kd * ((reference - current_depth) - c.previous_error) ∧
    (c.compute_control_action reference current_depth).2 =
        { c with previous_error := reference - current_depth } ∧
    PDController.init.previous_error = 0 :=
  ⟨rfl, rfl, rfl⟩

/-- C6: `transition` updates `pos_x` and `pos_y` with the pre-step
velocities, then updates `vel_y` from the force computed with the pre-step
`vel_y`; all other fields are unchanged. -/
theorem claim6_transition_ordering (s : Submarine) (action disturbance : ℚ) :
    s.transition action disturbance =
      { s with
        pos_x := s.pos_x + s.vel_x * s.dt,
        pos_y := s.pos_y + s.vel_y * s.dt,
        vel_y := s.vel_y +
          ((-s.drag * s.vel_y + s.actuator_gain * (action + disturbance)) /
            s.mass) * s.dt } :=
  rfl

/-- One loop iteration of `simulate`, as a function on the pair of states:
compute the control action for the given reference against the observed
depth, then apply `transition` with the given disturbance. -/
def stepState (st : Submarine × PDController) (rd : ℚ × ℚ) :
    Submarine × PDController :=
  let a := st.2.compute_control_action rd.1 st.1.get_depth
  (st.1.transition a.1 rd.2, a.2)

lemma simulateLoop_length :
    ∀ (refs : List ℚ) (p : Submarine) (c : PDController) (dists : List ℚ),
      refs.length ≤ dists.length →
      (simulateLoop p c refs dists).1.length = refs.length
  | [], _, _, _, _ => rfl
  | _ :: _, _, _, [], h => absurd h (by simp)
  | r :: refs, p, c, d :: dists, h => by
    simp only [simulateLoop, List.length_cons]
    rw [simulateLoop_length refs _ _ dists (by simpa using h)]

lemma simulateLoop_getD :
    ∀ (refs : List ℚ) (p : Submarine) (c : PDController) (dists : List ℚ)
      (t : ℕ), t < refs.length → refs.length ≤ dists.length →
      (simulateLoop p c refs dists).1.getD t (0, 0) =
        (((refs.take t).zip dists).foldl stepState (p, c)).1.get_position
  | [], _, _, _, t, ht, _ => absurd ht (by simp)
  | _ :: _, _, _, [], _, _, h => absurd h (by simp)
  | r :: refs, p, c, d :: dists, 0, _, _ => rfl
  | r :: refs, p, c, d :: dists, t + 1, ht, h => by
    simp only [simulateLoop, List.getD_cons_succ, List.take_succ_cons,
      List.zip_cons_cons, List.foldl_cons]
    exact simulateLoop_getD refs _ _ dists t (by simpa using ht)
      (by simpa using h)

lemma simulateLoop_take :
    ∀ (refs : List ℚ) (p : Submarine) (c : PDController) (d1 d2 : List ℚ),
      refs.length ≤ d1.length → refs.length ≤ d2.length →
      d1.take refs.length = d2.take refs.length →
      simulateLoop p c refs d1 = simulateLoop p c refs d2
  | [], _, _, _, _, _, _, _ => rfl
  | _ :: _, _, _, [], _, h1, _, _ => absurd h1 (by simp)
  | _ :: _, _, _, _ :: _, [], _, h2, _ => absurd h2 (by simp)
  | r :: refs, p, c, x :: d1, y :: d2, h1, h2, ht => by
    simp only [List.length_cons, List.take_succ_cons, List.cons.injEq] at ht
    obtain ⟨hxy, htt⟩ := ht
    subst hxy
    simp only [simulateLoop]
    rw [simulateLoop_take refs _ _ d1 d2 (by simpa using h1)
      (by simpa using h2) htt]

lemma simulateLoop_xcoords :
    ∀ (refs : List ℚ) (p : Submarine) (c : PDController) (dists : List ℚ),
      refs.length ≤ dists.length → p.vel_x = 1 → p.dt = 1 →
      (simulateLoop p c refs dists).1.map Prod.fst =
        (List.range refs.length).map (fun t : ℕ => p.pos_x + (t : ℚ))
  | [], _, _, _, _, _, _ => rfl
  | _ :: _, _, _, [], h, _, _ => absurd h (by simp)
  | r :: refs, p, c, d :: dists, h, hvx, hdt => by
    have hstep :
        (simulateLoop p c (r :: refs) (d :: dists)).1 =
          p.get_position ::
            (simulateLoop
              (p.transition (p.get_depth |> c.compute_control_action r).1 d)
              (p.get_depth |> c.compute_control_action r).2 refs dists).1 := rfl
    set p' := p.transition (p.get_depth |> c.compute_control_action r).1 d
      with hp'
    have hvx' : p'.vel_x = 1 := hvx
    have hdt' : p'.dt = 1 := hdt
    have hpos' : p'.pos_x = p.pos_x + 1 := by
      show p.pos_x + p.vel_x * p.dt = p.pos_x + 1
      rw [hvx, hdt]
      ring
    rw [hstep, List.map_cons,
      simulateLoop_xcoords refs p' _ dists (by simpa using h) hvx' hdt',
      hpos', List.length_cons, List.range_succ_eq_map, List.map_cons,
      List.map_map]
    have hfun :
        ((fun t : ℕ => p.pos_x + (t : ℚ)) ∘ Nat.succ) =
          fun t : ℕ => p.pos_x + 1 + (t : ℚ) := by
      funext t
      simp only [Function.comp]
      push_cast
      ring
    rw [hfun]
    simp [Submarine.get_position]

/-- C4: for a disturbance sequence at least as long as the mission horizon,
`simulate` succeeds with a trajectory of exactly `T` position pairs; entry
`t` is the vehicle position after the first `t` steps and before step `t`'s
transition, and entry 0 is the reset initial position `(0, 0)`. -/
theorem claim4_trajectory_entries (plant : Submarine) (ctrl : PDController)
    (m : Mission) (dists : List ℚ) (h : m.reference.length ≤ dists.length) :
    ∃ tr : List (ℚ × ℚ),
      (ClosedLoop.simulate plant ctrl m dists).1 = Except.ok tr ∧
      tr.length = m.reference.length ∧
      (∀ t : ℕ, t < m.reference.length →
        tr.getD t (0, 0) =
          (((m.reference.take t).zip dists).foldl stepState
            (plant.reset_state, ctrl)).1.get_position) ∧
      (0 < m.reference.length → tr.getD 0 (0, 0) = (0, 0)) := by
  refine ⟨(simulateLoop plant.reset_state ctrl m.reference dists).1, ?_, ?_, ?_, ?_⟩
  · simp [ClosedLoop.simulate, Nat.not_lt.mpr h]
  · exact simulateLoop_length m.reference _ _ dists h
  · intro t ht
    exact simulateLoop_getD m.reference _ _ dists t ht h
  · intro hT
    rw [simulateLoop_getD m.reference _ _ dists 0 hT h]
    rfl

/-- C4 witness at a concrete mission and disturbance list. -/
theorem claim4_trajectory_entries_witness :
    ∃ tr : List (ℚ × ℚ),
      (ClosedLoop.simulate Submarine.init PDController.init
          ⟨[1, 2], [], []⟩ [0, 0, 0]).1 = Except.ok tr ∧
      tr.length = (⟨[1, 2], [], []⟩ : Mission).reference.length ∧
      (∀ t : ℕ, t < (⟨[1, 2], [], []⟩ : Mission).reference.length →
        tr.getD t (0, 0) =
          ((((⟨[1, 2], [], []⟩ : Mission).reference.take t).zip
            [0, 0, 0]).foldl stepState
              (Submarine.init.reset_state, PDController.init)).1.get_position) ∧
      (0 < (⟨[1, 2], [], []⟩ : Mission).reference.length →
        tr.getD 0 (0, 0) = (0, 0)) :=
  claim4_trajectory_entries Submarine.init PDController.init
    ⟨[1, 2], [], []⟩ [0, 0, 0] (by decide)

/-- C9: `simulate` consumes only the first `T` entries of the disturbance
sequence: two disturbance sequences of sufficient length that agree on
indices `0..T-1` give identical results (trajectory and final states). -/
theorem claim9_first_T_disturbances (plant : Submarine) (ctrl : PDController)
    (m : Mission) (d1 d2 : List ℚ)
    (h1 : m.reference.length ≤ d1.length)
    (h2 : m.reference.length ≤ d2.length)
    (ht : d1.take m.reference.length = d2.take m.reference.length) :
    ClosedLoop.simulate plant ctrl m d1 = ClosedLoop.simulate plant ctrl m d2 := by
  unfold ClosedLoop.simulate
  rw [if_neg (Nat.not_lt.mpr h1), if_neg (Nat.not_lt.mpr h2),
    simulateLoop_take m.reference _ _ d1 d2 h1 h2 ht]

/-- C9 witness: two disturbance lists that differ only beyond the horizon. -/
theorem claim9_first_T_disturbances_witness :
    ClosedLoop.simulate Submarine.init PDController.init
        ⟨[1], [], []⟩ [0, 5] =
      ClosedLoop.simulate Submarine.init PDController.init
        ⟨[1], [], []⟩ [0, 7] :=
  claim9_first_T_disturbances Submarine.init PDController.init
    ⟨[1], [], []⟩ [0, 5] [0, 7] (by decide) (by decide) rfl

/-- C10: with `dt = 1`, the x-coordinates of every successful trajectory are
exactly `0, 1, ..., T-1`, for every mission, sufficient disturbance list,
gains and prior controller state: the horizontal track is fixed by the reset
(`pos_x = 0`, `vel_x = 1`) and is independent of actions and disturbances. -/
theorem claim10_xcoords (plant : Submarine) (ctrl : PDController)
    (m : Mission) (dists : List ℚ) (hdt : plant.dt = 1)
    (h : m.reference.length ≤ dists.length) :
    ∃ tr : List (ℚ × ℚ),
      (ClosedLoop.simulate plant ctrl m dists).1 = Except.ok tr ∧
      tr.map Prod.fst =
        (List.range m.reference.length).map (fun t : ℕ => (t : ℚ)) := by
  refine ⟨(simulateLoop plant.reset_state ctrl m.reference dists).1, ?_, ?_⟩
  · simp [ClosedLoop.simulate, Nat.not_lt.mpr h]
  · rw [simulateLoop_xcoords m.reference plant.reset_state ctrl dists h rfl hdt]
    apply List.map_congr_left
    intro t _
    show (0 : ℚ) + (t : ℚ) = (t : ℚ)
    ring

/-- C10 witness at a concrete mission and disturbance list. -/
theorem claim10_xcoords_witness :
    ∃ tr : List (ℚ × ℚ),
      (ClosedLoop.simulate Submarine.init PDController.init
          ⟨[3, 4], [], []⟩ [1, 2]).1 = Except.ok tr ∧
      tr.map Prod.fst =
        (List.range (⟨[3, 4], [], []⟩ : Mission).reference.length).map
          (fun t : ℕ => (t : ℚ)) :=
  claim10_xcoords Submarine.init PDController.init
    ⟨[3, 4], [], []⟩ [1, 2] rfl (by decide)

/-- Maximum of `f` over the index range `0..T-1` (spec-side formulation of
`max(...) over all t`). -/
def specMax (T : ℕ) (f : ℕ → ℚ) : ℚ := maxList ((List.range T).map f)

lemma zipWith_getD (f : ℚ → ℚ → ℚ) :
    ∀ (xs ys : List ℚ), xs.length = ys.length →
      List.zipWith f xs ys =
        (List.range xs.length).map (fun t : ℕ => f (xs.getD t 0) (ys.getD t 0))
  | [], [], _ => rfl
  | [], _ :: _, h => absurd h (by simp)
  | _ :: _, [], h => absurd h (by simp)
  | x :: xs, y :: ys, h => by
    rw [List.zipWith_cons_cons, zipWith_getD f xs ys (by simpa using h),
      List.length_cons, List.range_succ_eq_map, List.map_cons, List.map_map]
    simp only [List.getD_cons_zero, List.cons.injEq]
    refine ⟨trivial, ?_⟩
    apply List.map_congr_left
    intro t _
    simp [List.getD_cons_succ]

lemma map_getD (f : ℚ → ℚ) :
    ∀ xs : List ℚ,
      xs.map f = (List.range xs.length).map (fun t : ℕ => f (xs.getD t 0))
  | [] => rfl
  | x :: xs => by
    rw [List.map_cons, map_getD f xs, List.length_cons,
      List.range_succ_eq_map, List.map_cons, List.map_map]
    simp only [List.getD_cons_zero, List.cons.injEq]
    refine ⟨trivial, ?_⟩
    apply List.map_congr_left
    intro t _
    simp [List.getD_cons_succ]

lemma getD_map_snd :
    ∀ (l : List (ℚ × ℚ)) (t : ℕ), t < l.length →
      (l.map Prod.snd).getD t 0 = (l.getD t (0, 0)).2
  | [], t, ht => absurd ht (by simp)
  | _ :: _, 0, _ => rfl
  | p :: l, t + 1, ht => by
    simp only [List.map_cons, List.getD_cons_succ]
    exact getD_map_snd l t (by simpa using ht)

/-- C7: `calculate_performance_metrics` reports
`overshoot = 100 * max_t |position_y[t] - reference[t]| / max_t |reference[t]|`
and `steady_state_error = |position_y[T-1] - reference[T-1]|` for a
trajectory and a mission both of length `T > 0`. -/
theorem claim7_overshoot_sse (dt : ℚ) (position : List (ℚ × ℚ)) (m : Mission)
    (T : ℕ) (hT : 0 < T) (hp : position.length = T)
    (hr : m.reference.length = T) :
    (calculate_performance_metrics dt position m).overshoot =
      100 * specMax T
          (fun t => |(position.getD t (0, 0)).2 - m.reference.getD t 0|) /
        specMax T (fun t => |m.reference.getD t 0|) ∧
    (calculate_performance_metrics dt position m).steady_state_error =
      |(position.getD (T - 1) (0, 0)).2 - m.reference.getD (T - 1) 0| := by
  have hpy : (position.map Prod.snd).length = T := by simpa using hp
  constructor
  · show maxList (List.zipWith (fun p r => |p - r|)
        (position.map Prod.snd) m.reference) /
      maxList (m.reference.map fun r => |r|) * 100 = _
    rw [zipWith_getD _ _ _ (by rw [hpy, hr]), map_getD, hpy, hr]
    have h1 : (List.range T).map
        (fun t : ℕ =>
          |(position.map Prod.snd).getD t 0 - m.reference.getD t 0|) =
        (List.range T).map
        (fun t : ℕ => |(position.getD t (0, 0)).2 - m.reference.getD t 0|) := by
      apply List.map_congr_left
      intro t htm
      rw [getD_map_snd position t (by rw [hp]; exact List.mem_range.mp htm)]
    rw [h1]
    unfold specMax
    ring
  · show |(position.map Prod.snd).getD ((position.map Prod.snd).length - 1) 0 -
        m.reference.getD (m.reference.length - 1) 0| = _
    rw [hpy, hr, getD_map_snd position (T - 1) (by omega)]

/-- C7 witness at a concrete one-step trajectory and mission. -/
theorem claim7_overshoot_sse_witness :
    (calculate_performance_metrics 1 [(0, 3)] ⟨[2], [], []⟩).overshoot =
      100 * specMax 1
          (fun t => |(([(0, 3)] : List (ℚ × ℚ)).getD t (0, 0)).2 -
            (⟨[2], [], []⟩ : Mission).reference.getD t 0|) /
        specMax 1 (fun t => |(⟨[2], [], []⟩ : Mission).reference.getD t 0|) ∧
    (calculate_performance_metrics 1 [(0, 3)] ⟨[2], [], []⟩).steady_state_error =
      |(([(0, 3)] : List (ℚ × ℚ)).getD (1 - 1) (0, 0)).2 -
        (⟨[2], [], []⟩ : Mission).reference.getD (1 - 1) 0| :=
  claim7_overshoot_sse 1 [(0, 3)] ⟨[2], [], []⟩ 1 (by decide) rfl rfl

end UUV

